import Mathlib

/-!
Shallow embedding of the `lmath-rs` vector library (src/vec.rs, src/vec4.rs):
the 4-component vector `Vec4<T>` and the operations of its capability traits
(`Vector`, `MutableVector`, `NumericVector`, `MutableNumericVector`,
`EuclideanVector`, `MutableEuclideanVector`, `FuzzyEq`, `EquableVector`,
`BooleanVector`), together with proofs of the specified properties.

Machine scalars are modelled exactly: integer/unsigned/floating kinds become an
abstract scalar type carrying the operations the Rust trait bounds demand
(`Number` supplies zero/one and ring operations; `Float` additionally supplies
`sqrt`, which is passed as an explicit function argument). Fallible indexing
becomes `Option`; in-place mutation becomes explicit state passing that mirrors
the statement order of the Rust bodies.
-/

namespace LMath

/-- `pub struct Vec4<T> { x: T, y: T, z: T, w: T }` (src/vec4.rs line 44). -/
structure Vec4 (α : Type*) where
  x : α
  y : α
  z : α
  w : α
deriving DecidableEq

namespace Vec4

variable {α : Type*}

/-- `Vector4::new(x, y, z, w)` (src/vec4.rs lines 62-67). -/
def new (x y z w : α) : Vec4 α := ⟨x, y, z, w⟩

/-- `to_ptr` exposes the components as a contiguous sequence in x,y,z,w order
(src/vec4.rs lines 52-59); modelled as the list of components. -/
def toList (v : Vec4 α) : List α := [v.x, v.y, v.z, v.w]

/-- `Index for Vec4` (src/vec4.rs lines 69-74): `buf_as_slice(self.to_ptr(), 4)
|slice| slice[i]` — a bounds-checked read of the 4-element view, failing for
`i >= 4`; modelled as `Option`. -/
def index (v : Vec4 α) (i : Nat) : Option α := v.toList.get? i

/-- Component at an in-range position, following the x,y,z,w layout order the
code reads through `to_ptr`. -/
def comp (v : Vec4 α) (i : Fin 4) : α :=
  if i.val = 0 then v.x
  else if i.val = 1 then v.y
  else if i.val = 2 then v.z
  else v.w

/-- `index_mut` (src/vec4.rs lines 77-86): matches the index to one of the four
fields and fails (`fail!`) otherwise. A mutable reference is modelled as the
resolved place, an in-range component position. -/
def index_mut (_v : Vec4 α) (i : Nat) : Option (Fin 4) :=
  match i with
  | 0 => some 0
  | 1 => some 1
  | 2 => some 2
  | 3 => some 3
  | _ => none

/-- Writing through a resolved mutable reference: replace the component at the
given place. -/
def setComp (v : Vec4 α) (i : Fin 4) (a : α) : Vec4 α :=
  if i.val = 0 then { v with x := a }
  else if i.val = 1 then { v with y := a }
  else if i.val = 2 then { v with z := a }
  else { v with w := a }

/-- `swap(a, b)` (src/vec4.rs lines 88-92): resolves `index_mut(a)` then
`index_mut(b)` (failing, with no mutation, if either is out of range), then
`core::util::swap` exchanges the two referenced cells via a temporary. -/
def swap (v : Vec4 α) (a b : Nat) : Option (Vec4 α) :=
  (v.index_mut a).bind fun pa =>
    (v.index_mut b).bind fun pb =>
      some ((v.setComp pa (v.comp pb)).setComp pb (v.comp pa))

/-- `Vector::from_value(value)` (src/vec4.rs lines 47-50). -/
def from_value (value : α) : Vec4 α := new value value value value

/-- `NumericVector::identity()` (src/vec4.rs lines 96-99). -/
def identity [One α] : Vec4 α := new 1 1 1 1

/-- `NumericVector::zero()` (src/vec4.rs lines 101-104). -/
def zero [Zero α] : Vec4 α := new 0 0 0 0

/-- `is_zero()` (src/vec4.rs lines 106-112): `self[0] == zero() && ...` —
the indexed reads at the literal positions 0..3 are the components x,y,z,w. -/
def is_zero [Zero α] [DecidableEq α] (v : Vec4 α) : Bool :=
  (v.x == 0) && (v.y == 0) && (v.z == 0) && (v.w == 0)

/-- `mul_t(value)` (src/vec4.rs lines 114-120). -/
def mul_t [Mul α] (v : Vec4 α) (value : α) : Vec4 α :=
  new (v.x * value) (v.y * value) (v.z * value) (v.w * value)

/-- `div_t(value)` (src/vec4.rs lines 122-128). -/
def div_t [Div α] (v : Vec4 α) (value : α) : Vec4 α :=
  new (v.x / value) (v.y / value) (v.z / value) (v.w / value)

/-- `add_v(other)` (src/vec4.rs lines 130-136). -/
def add_v [Add α] (v other : Vec4 α) : Vec4 α :=
  new (v.x + other.x) (v.y + other.y) (v.z + other.z) (v.w + other.w)

/-- `sub_v(other)` (src/vec4.rs lines 138-144). -/
def sub_v [Sub α] (v other : Vec4 α) : Vec4 α :=
  new (v.x - other.x) (v.y - other.y) (v.z - other.z) (v.w - other.w)

/-- `mul_v(other)` (src/vec4.rs lines 146-152). -/
def mul_v [Mul α] (v other : Vec4 α) : Vec4 α :=
  new (v.x * other.x) (v.y * other.y) (v.z * other.z) (v.w * other.w)

/-- `div_v(other)` (src/vec4.rs lines 154-160). -/
def div_v [Div α] (v other : Vec4 α) : Vec4 α :=
  new (v.x / other.x) (v.y / other.y) (v.z / other.z) (v.w / other.w)

/-- `dot(other)` (src/vec4.rs lines 162-168). -/
def dot [Mul α] [Add α] (v other : Vec4 α) : α :=
  v.x * other.x + v.y * other.y + v.z * other.z + v.w * other.w

/-- `Neg for Vec4` (src/vec4.rs lines 171-176). -/
def neg [Neg α] (v : Vec4 α) : Vec4 α :=
  new (-v.x) (-v.y) (-v.z) (-v.w)

/-- `neg_self` (src/vec4.rs lines 202-207): negates each component in place,
one statement at a time. -/
def neg_self [Neg α] (v : Vec4 α) : Vec4 α :=
  let v := { v with x := -v.x }
  let v := { v with y := -v.y }
  let v := { v with z := -v.z }
  { v with w := -v.w }

/-- `mul_self_t(value)` (src/vec4.rs lines 210-215). -/
def mul_self_t [Mul α] (v : Vec4 α) (value : α) : Vec4 α :=
  let v := { v with x := v.x * value }
  let v := { v with y := v.y * value }
  let v := { v with z := v.z * value }
  { v with w := v.w * value }

/-- `div_self_t(value)` (src/vec4.rs lines 218-223). -/
def div_self_t [Div α] (v : Vec4 α) (value : α) : Vec4 α :=
  let v := { v with x := v.x / value }
  let v := { v with y := v.y / value }
  let v := { v with z := v.z / value }
  { v with w := v.w / value }

/-- `add_self_v(other)` (src/vec4.rs lines 226-231). -/
def add_self_v [Add α] (v other : Vec4 α) : Vec4 α :=
  let v := { v with x := v.x + other.x }
  let v := { v with y := v.y + other.y }
  let v := { v with z := v.z + other.z }
  { v with w := v.w + other.w }

/-- `sub_self_v(other)` (src/vec4.rs lines 234-239). -/
def sub_self_v [Sub α] (v other : Vec4 α) : Vec4 α :=
  let v := { v with x := v.x - other.x }
  let v := { v with y := v.y - other.y }
  let v := { v with z := v.z - other.z }
  { v with w := v.w - other.w }

/-- `mul_self_v(other)` (src/vec4.rs lines 242-247). -/
def mul_self_v [Mul α] (v other : Vec4 α) : Vec4 α :=
  let v := { v with x := v.x * other.x }
  let v := { v with y := v.y * other.y }
  let v := { v with z := v.z * other.z }
  { v with w := v.w * other.w }

/-- `div_self_v(other)` (src/vec4.rs lines 250-255). -/
def div_self_v [Div α] (v other : Vec4 α) : Vec4 α :=
  let v := { v with x := v.x / other.x }
  let v := { v with y := v.y / other.y }
  let v := { v with z := v.z / other.z }
  { v with w := v.w / other.w }

/-- `length2()` (src/vec4.rs lines 260-262): `self.dot(self)`. -/
def length2 [Mul α] [Add α] (v : Vec4 α) : α := v.dot v

/-- `length()` (src/vec4.rs lines 265-267): `self.length2().sqrt()` — the
scalar kind's `sqrt` (from the `Float` bound) is passed explicitly as `sq`. -/
def length [Mul α] [Add α] (sq : α → α) (v : Vec4 α) : α := sq v.length2

/-- `normalize()` (src/vec4.rs lines 285-287): `self.mul_t(one/self.length())`. -/
def normalize [Mul α] [Add α] [One α] [Div α] (sq : α → α) (v : Vec4 α) : Vec4 α :=
  v.mul_t (1 / v.length sq)

/-- `normalize_to(length)` (src/vec4.rs lines 290-292):
`self.mul_t(length / self.length())`. -/
def normalize_to [Mul α] [Add α] [Div α] (sq : α → α) (v : Vec4 α) (len : α) : Vec4 α :=
  v.mul_t (len / v.length sq)

/-- `lerp(other, amount)` (src/vec4.rs lines 295-297):
`self.add_v(&other.sub_v(self).mul_t(amount))`. -/
def lerp [Add α] [Sub α] [Mul α] (v other : Vec4 α) (amount : α) : Vec4 α :=
  v.add_v ((other.sub_v v).mul_t amount)

/-- `normalize_self()` (src/vec4.rs lines 302-305):
`let n = one / self.length(); self.mul_self_t(&n)`. -/
def normalize_self [Mul α] [Add α] [One α] [Div α] (sq : α → α) (v : Vec4 α) : Vec4 α :=
  let n := 1 / v.length sq
  v.mul_self_t n

/-- `normalize_self_to(length)` (src/vec4.rs lines 308-311):
`let n = length / self.length(); self.mul_self_t(&n)`. -/
def normalize_self_to [Mul α] [Add α] [Div α] (sq : α → α) (v : Vec4 α) (len : α) : Vec4 α :=
  let n := len / v.length sq
  v.mul_self_t n

/-- `lerp_self(other, amount)` (src/vec4.rs lines 313-315):
`self.add_self_v(&other.sub_v(&*self).mul_t(*amount))` — the argument vector is
computed from the pre-mutation `self`, then added in place. -/
def lerp_self [Add α] [Sub α] [Mul α] (v other : Vec4 α) (amount : α) : Vec4 α :=
  v.add_self_v ((other.sub_v v).mul_t amount)

/-- Modelled from the spec: the scalar kind's own parameterized fuzzy comparison
(`std::cmp::FuzzyEq::fuzzy_eq_eps`, external to this repository) — true iff the
two scalars are within `eps` of each other. -/
def scalar_fuzzy_eq_eps [LinearOrderedField α] (a b eps : α) : Bool :=
  decide (|a - b| < eps)

/-- Modelled from the spec: the named process-wide default tolerance constant
(`std::cmp::FUZZY_EPSILON = 1.0e-6`, external to this repository). -/
def FUZZY_EPSILON (α : Type*) [LinearOrderedField α] : α := 1 / 1000000

/-- `fuzzy_eq_eps(other, epsilon)` (src/vec4.rs lines 324-330): every component
pair within `epsilon` under the scalar's fuzzy comparison. -/
def fuzzy_eq_eps [LinearOrderedField α] (v other : Vec4 α) (epsilon : α) : Bool :=
  scalar_fuzzy_eq_eps v.x other.x epsilon &&
  scalar_fuzzy_eq_eps v.y other.y epsilon &&
  scalar_fuzzy_eq_eps v.z other.z epsilon &&
  scalar_fuzzy_eq_eps v.w other.w epsilon

/-- `fuzzy_eq(other)` (src/vec4.rs lines 319-322):
`self.fuzzy_eq_eps(other, &Number::from(FUZZY_EPSILON))`. -/
def fuzzy_eq [LinearOrderedField α] (v other : Vec4 α) : Bool :=
  v.fuzzy_eq_eps other (FUZZY_EPSILON α)

/-- `equal(other)` (src/vec4.rs lines 368-374). -/
def equal [DecidableEq α] (v other : Vec4 α) : Vec4 Bool :=
  new (v.x == other.x) (v.y == other.y) (v.z == other.z) (v.w == other.w)

/-- `not_equal(other)` (src/vec4.rs lines 376-382). -/
def not_equal [DecidableEq α] (v other : Vec4 α) : Vec4 Bool :=
  new (v.x != other.x) (v.y != other.y) (v.z != other.z) (v.w != other.w)

/-- `any()` (src/vec4.rs lines 386-389). -/
def any (v : Vec4 Bool) : Bool := v.x || v.y || v.z || v.w

/-- `all()` (src/vec4.rs lines 391-394). -/
def all (v : Vec4 Bool) : Bool := v.x && v.y && v.z && v.w

/-- `not()` (src/vec4.rs lines 396-399). -/
def not (v : Vec4 Bool) : Vec4 Bool := new (!v.x) (!v.y) (!v.z) (!v.w)

/-- Shared helper: reading back the component just written. -/
theorem comp_setComp_self (v : Vec4 α) (i : Fin 4) (x : α) :
    (v.setComp i x).comp i = x := by
  fin_cases i <;> rfl

/-- Shared helper: writing one component leaves the others unchanged. -/
theorem comp_setComp_ne (v : Vec4 α) (x : α) {i j : Fin 4} (h : j ≠ i) :
    (v.setComp i x).comp j = v.comp j := by
  fin_cases i <;> fin_cases j <;> first | rfl | exact absurd rfl h

/-- Shared helper: writing a component's own value back is the identity. -/
theorem setComp_comp (v : Vec4 α) (i : Fin 4) : v.setComp i (v.comp i) = v := by
  fin_cases i <;> rfl

/-- Shared helper: `index_mut` fails exactly on out-of-range positions. -/
theorem index_mut_none (v : Vec4 α) {i : Nat} (h : 4 ≤ i) : v.index_mut i = none := by
  match i, h with
  | n + 4, _ => rfl

/-- Shared helper: `index_mut` succeeds on an in-range position, resolving it. -/
theorem index_mut_some (v : Vec4 α) {i : Nat} (h : i < 4) :
    v.index_mut i = some ⟨i, h⟩ := by
  match i, h with
  | 0, _ => rfl
  | 1, _ => rfl
  | 2, _ => rfl
  | 3, _ => rfl

end Vec4

/-- C1: every paired mutable/value operation of Vec4 is observably equivalent —
`neg_self`, `mul_self_t`, `div_self_t`, `add_self_v`, `sub_self_v`,
`mul_self_v`, `div_self_v`, `normalize_self`, `normalize_self_to`, `lerp_self`
each leave the vector equal to the corresponding value-returning operation
(`neg`, `mul_t`, `div_t`, `add_v`, `sub_v`, `mul_v`, `div_v`, `normalize`,
`normalize_to`, `lerp`) applied to the original value with the same
arguments. -/
theorem mutable_value_equivalence {α : Type*} [Neg α] [Add α] [Sub α] [Mul α]
    [Div α] [One α] (sq : α → α) (a b : Vec4 α) (t len amount : α) :
    a.neg_self = a.neg ∧
    a.mul_self_t t = a.mul_t t ∧
    a.div_self_t t = a.div_t t ∧
    a.add_self_v b = a.add_v b ∧
    a.sub_self_v b = a.sub_v b ∧
    a.mul_self_v b = a.mul_v b ∧
    a.div_self_v b = a.div_v b ∧
    Vec4.normalize_self sq a = Vec4.normalize sq a ∧
    Vec4.normalize_self_to sq a len = Vec4.normalize_to sq a len ∧
    a.lerp_self b amount = a.lerp b amount :=
  ⟨rfl, rfl, rfl, rfl, rfl, rfl, rfl, rfl, rfl, rfl⟩

/-- C2: the indexed read succeeds and returns component `i` when `i < 4`, fails
when `i >= 4`, and the mutable index fails under exactly the same condition
(never clamping or wrapping). -/
theorem index_bounds {α : Type*} (v : Vec4 α) (i : Nat) :
    (∀ h : i < 4, v.index i = some (v.comp ⟨i, h⟩)) ∧
    (4 ≤ i → v.index i = none) ∧
    (v.index_mut i = none ↔ 4 ≤ i) := by
  refine ⟨fun h => ?_, fun h => ?_, ?_, fun h => Vec4.index_mut_none v h⟩
  · match i, h with
    | 0, _ => rfl
    | 1, _ => rfl
    | 2, _ => rfl
    | 3, _ => rfl
  · match i, h with
    | n + 4, _ => rfl
  · intro hnone
    by_contra hlt
    push_neg at hlt
    rw [Vec4.index_mut_some v hlt] at hnone
    exact Option.noConfusion hnone

/-- Witness for C2 at a concrete vector: position 2 reads back component 2,
position 5 is rejected. -/
theorem index_bounds_witness :
    (Vec4.new (1:ℤ) 2 3 4).index 2 = some ((Vec4.new (1:ℤ) 2 3 4).comp ⟨2, by decide⟩) ∧
    (Vec4.new (1:ℤ) 2 3 4).index 5 = none :=
  ⟨(index_bounds (Vec4.new (1:ℤ) 2 3 4) 2).1 (by decide),
   (index_bounds (Vec4.new (1:ℤ) 2 3 4) 5).2.1 (by decide)⟩

/-- C3: `from_value(v)[i] == v` for every valid index `i`. -/
theorem from_value_broadcast {α : Type*} (value : α) (i : Nat) (h : i < 4) :
    (Vec4.from_value value).index i = some value := by
  match i, h with
  | 0, _ => rfl
  | 1, _ => rfl
  | 2, _ => rfl
  | 3, _ => rfl

/-- Witness for C3 at a concrete scalar and index. -/
theorem from_value_broadcast_witness :
    (Vec4.from_value (5:ℤ)).index 2 = some 5 :=
  from_value_broadcast 5 2 (by decide)

/-- C4: `zero()` satisfies `is_zero() == true` and `identity()` satisfies
`is_zero() == false`, for any numeric scalar kind (whose one differs from its
zero). -/
theorem zero_identity_is_zero {α : Type*} [Zero α] [One α] [DecidableEq α]
    (h : (1:α) ≠ 0) :
    (Vec4.zero : Vec4 α).is_zero = true ∧ (Vec4.identity : Vec4 α).is_zero = false := by
  constructor
  · simp [Vec4.is_zero, Vec4.zero, Vec4.new]
  · simp [Vec4.is_zero, Vec4.identity, Vec4.new, h]

/-- Witness for C4 at the integer scalar kind. -/
theorem zero_identity_is_zero_witness :
    (Vec4.zero : Vec4 ℤ).is_zero = true ∧ (Vec4.identity : Vec4 ℤ).is_zero = false :=
  zero_identity_is_zero (by decide)

/-- C5: component-wise addition and the dot product are commutative. -/
theorem add_v_dot_comm {α : Type*} [CommRing α] (a b : Vec4 α) :
    a.add_v b = b.add_v a ∧ a.dot b = b.dot a := by
  refine ⟨?_, ?_⟩
  · simp only [Vec4.add_v, Vec4.new, Vec4.mk.injEq]
    exact ⟨add_comm _ _, add_comm _ _, add_comm _ _, add_comm _ _⟩
  · simp only [Vec4.dot]
    ring

/-- C6: linear interpolation at the boundaries recovers the endpoints:
`a.lerp(&b, 0) == a` and `a.lerp(&b, 1) == b`. -/
theorem lerp_boundary {α : Type*} [CommRing α] (a b : Vec4 α) :
    a.lerp b 0 = a ∧ a.lerp b 1 = b := by
  obtain ⟨a1, a2, a3, a4⟩ := a
  obtain ⟨b1, b2, b3, b4⟩ := b
  refine ⟨?_, ?_⟩ <;>
    · simp only [Vec4.lerp, Vec4.add_v, Vec4.sub_v, Vec4.mul_t, Vec4.new,
        Vec4.mk.injEq]
      refine ⟨by ring, by ring, by ring, by ring⟩

/-- C7: fuzzy equality is reflexive, and the default tolerance of `fuzzy_eq` is
the named process-wide constant `FUZZY_EPSILON` (the call is literally
`fuzzy_eq_eps` at that constant). -/
theorem fuzzy_eq_refl_default {α : Type*} [LinearOrderedField α] (v : Vec4 α) :
    v.fuzzy_eq v = true ∧
    ∀ o : Vec4 α, v.fuzzy_eq o = v.fuzzy_eq_eps o (Vec4.FUZZY_EPSILON α) := by
  refine ⟨?_, fun o => rfl⟩
  have h : (0:α) < 1 / 1000000 := by positivity
  simp [Vec4.fuzzy_eq, Vec4.fuzzy_eq_eps, Vec4.scalar_fuzzy_eq_eps,
    Vec4.FUZZY_EPSILON, sub_self, abs_zero, h]

/-- C8: `swap(a, b)` exchanges the components at positions `a` and `b` in place,
fails if either index is out of range, and is a no-op (not an error) when
`a == b`. -/
theorem swap_spec {α : Type*} (v : Vec4 α) (a b : Nat) :
    (∀ (ha : a < 4) (hb : b < 4), ∃ w : Vec4 α, v.swap a b = some w ∧
        w.comp ⟨a, ha⟩ = v.comp ⟨b, hb⟩ ∧ w.comp ⟨b, hb⟩ = v.comp ⟨a, ha⟩ ∧
        ∀ j : Fin 4, j.val ≠ a → j.val ≠ b → w.comp j = v.comp j) ∧
    (4 ≤ a ∨ 4 ≤ b → v.swap a b = none) ∧
    (a = b → a < 4 → v.swap a b = some v) := by
  refine ⟨fun ha hb => ?_, fun h => ?_, fun hab ha => ?_⟩
  · refine ⟨(v.setComp ⟨a, ha⟩ (v.comp ⟨b, hb⟩)).setComp ⟨b, hb⟩ (v.comp ⟨a, ha⟩),
      ?_, ?_, Vec4.comp_setComp_self _ _ _, fun j hja hjb => ?_⟩
    · simp [Vec4.swap, Vec4.index_mut_some v ha, Vec4.index_mut_some v hb]
    · rcases eq_or_ne a b with hab | hab
      · subst hab
        exact Vec4.comp_setComp_self _ _ _
      · rw [Vec4.comp_setComp_ne _ _ (Fin.ne_of_val_ne hab),
          Vec4.comp_setComp_self]
    · rw [Vec4.comp_setComp_ne _ _ (Fin.ne_of_val_ne hjb),
        Vec4.comp_setComp_ne _ _ (Fin.ne_of_val_ne hja)]
  · rcases h with h | h
    · simp [Vec4.swap, Vec4.index_mut_none v h]
    · cases hA : v.index_mut a with
      | none => simp [Vec4.swap, hA]
      | some pa => simp [Vec4.swap, hA, Vec4.index_mut_none v h]
  · subst hab
    interval_cases a <;> rfl

/-- Witness for C8 at a concrete vector: swapping a position with itself is a
no-op. -/
theorem swap_spec_witness :
    (Vec4.new (1:ℤ) 2 3 4).swap 1 1 = some (Vec4.new (1:ℤ) 2 3 4) :=
  (swap_spec (Vec4.new (1:ℤ) 2 3 4) 1 1).2.2 rfl (by decide)

/-- C9: `not_equal` is the component-wise logical complement of `equal`:
`a.not_equal(&b) == a.equal(&b).not()`. -/
theorem not_equal_eq_equal_not {α : Type*} [DecidableEq α] (a b : Vec4 α) :
    a.not_equal b = (a.equal b).not :=
  rfl

/-- C10: structural equality agrees with the component-wise comparison reduced
by `all`: `a == b` iff `a.equal(&b).all() == true`. -/
theorem eq_iff_equal_all {α : Type*} [DecidableEq α] (a b : Vec4 α) :
    a = b ↔ (a.equal b).all = true := by
  obtain ⟨a1, a2, a3, a4⟩ := a
  obtain ⟨b1, b2, b3, b4⟩ := b
  simp [Vec4.equal, Vec4.all, Vec4.new, Vec4.mk.injEq, Bool.and_eq_true,
    beq_iff_eq, and_assoc]

end LMath
